import Mathlib

/-!
Shallow embedding of the procedural geometry generators of
`GraphObjects.cpp` (graph-engine-webgpu).  C++ `float` arithmetic is
modelled by exact real arithmetic (`ℝ`), `glm::vec3` by `Vec3`,
`int` by `ℤ`, and `std::vector<VertexAttributes>` by
`List VertexAttributes`.  Division by zero is Lean's total division
(junk value 0).  Each definition mirrors one function of the source
file; theorems below settle the frozen claims about them.
-/

set_option maxHeartbeats 1000000

noncomputable section

open Real

open scoped Classical

/-- Model of `glm::vec3`: three real components. -/
structure Vec3 where
  x : ℝ
  y : ℝ
  z : ℝ

namespace Vec3

instance : Add Vec3 := ⟨fun a b => ⟨a.x + b.x, a.y + b.y, a.z + b.z⟩⟩

instance : Sub Vec3 := ⟨fun a b => ⟨a.x - b.x, a.y - b.y, a.z - b.z⟩⟩

instance : Neg Vec3 := ⟨fun a => ⟨-a.x, -a.y, -a.z⟩⟩

instance : SMul ℝ Vec3 := ⟨fun r a => ⟨r * a.x, r * a.y, r * a.z⟩⟩

instance : Zero Vec3 := ⟨⟨0, 0, 0⟩⟩

/-- Componentwise division by a scalar, as in `glm` `v / s`. -/
def divs (a : Vec3) (r : ℝ) : Vec3 := ⟨a.x / r, a.y / r, a.z / r⟩

/-- Model of `glm::dot`. -/
def dot (a b : Vec3) : ℝ := a.x * b.x + a.y * b.y + a.z * b.z

/-- Model of `glm::cross`. -/
def cross (a b : Vec3) : Vec3 :=
  ⟨a.y * b.z - a.z * b.y, a.z * b.x - a.x * b.z, a.x * b.y - a.y * b.x⟩

/-- Squared euclidean length. -/
def normSq (a : Vec3) : ℝ := a.x ^ 2 + a.y ^ 2 + a.z ^ 2

/-- Model of `glm::length`. -/
def norm (a : Vec3) : ℝ := Real.sqrt (normSq a)

/-- Model of `glm::normalize`: `v / length(v)`. -/
def normalize (a : Vec3) : Vec3 := a.divs (norm a)

@[simp] theorem add_def (a b : Vec3) :
    a + b = ⟨a.x + b.x, a.y + b.y, a.z + b.z⟩ := rfl

@[simp] theorem sub_def (a b : Vec3) :
    a - b = ⟨a.x - b.x, a.y - b.y, a.z - b.z⟩ := rfl

@[simp] theorem neg_def (a : Vec3) : -a = ⟨-a.x, -a.y, -a.z⟩ := rfl

@[simp] theorem smul_def (r : ℝ) (a : Vec3) :
    r • a = ⟨r * a.x, r * a.y, r * a.z⟩ := rfl

@[simp] theorem zero_def : (0 : Vec3) = ⟨0, 0, 0⟩ := rfl

theorem normSq_nonneg (a : Vec3) : 0 ≤ normSq a := by
  unfold normSq; positivity

theorem norm_nonneg (a : Vec3) : 0 ≤ norm a := Real.sqrt_nonneg _

theorem sq_norm (a : Vec3) : norm a ^ 2 = normSq a :=
  Real.sq_sqrt (normSq_nonneg a)

theorem norm_zero : norm (0 : Vec3) = 0 := by
  unfold norm normSq
  simp

/-- Lagrange identity for the 3D cross product. -/
theorem normSq_cross (a b : Vec3) :
    normSq (cross a b) = normSq a * normSq b - dot a b ^ 2 := by
  unfold normSq cross dot
  ring

/-- The cross product is orthogonal to its first factor. -/
theorem dot_cross_left (a b : Vec3) : dot (cross a b) a = 0 := by
  unfold cross dot; ring

/-- The cross product is orthogonal to its second factor. -/
theorem dot_cross_right (a b : Vec3) : dot (cross a b) b = 0 := by
  unfold cross dot; ring

/-- Cauchy–Schwarz for `Vec3.dot`, from the Lagrange identity. -/
theorem dot_sq_le (a b : Vec3) : dot a b ^ 2 ≤ normSq a * normSq b := by
  have h := normSq_nonneg (cross a b)
  have h2 := normSq_cross a b
  linarith

theorem dot_comm (a b : Vec3) : dot a b = dot b a := by
  unfold dot; ring

theorem dot_self (a : Vec3) : dot a a = normSq a := by
  unfold dot normSq; ring

theorem dot_divs_left (a : Vec3) (r : ℝ) (b : Vec3) :
    dot (a.divs r) b = dot a b / r := by
  unfold dot divs
  simp only []
  ring

theorem normSq_divs (a : Vec3) (r : ℝ) :
    normSq (a.divs r) = normSq a / r ^ 2 := by
  unfold normSq divs
  simp only []
  ring

theorem normSq_sub_comm (a b : Vec3) : normSq (a - b) = normSq (b - a) := by
  unfold normSq
  simp only [sub_def]
  ring

/-- Squared length of a normalized nonzero vector is 1. -/
theorem normSq_normalize (a : Vec3) (h : normSq a ≠ 0) :
    normSq (normalize a) = 1 := by
  unfold normalize
  rw [normSq_divs, sq_norm]
  field_simp

theorem norm_pos_of_normSq_pos (a : Vec3) (h : 0 < normSq a) : 0 < norm a :=
  Real.sqrt_pos.mpr h

end Vec3

/-- Componentwise product, as in `glm` `v * w`. -/
instance : Mul Vec3 := ⟨fun a b => ⟨a.x * b.x, a.y * b.y, a.z * b.z⟩⟩

@[simp] theorem Vec3.mul_def (a b : Vec3) :
    a * b = ⟨a.x * b.x, a.y * b.y, a.z * b.z⟩ := rfl

/-- Model of `ResourceManager::VertexAttributes`. -/
structure VertexAttributes where
  position : Vec3
  normal : Vec3
  color : Vec3
  uv : ℝ × ℝ

/-- Model of `glm::clamp(t, 0.0f, 1.0f)`: `min(max(t, lo), hi)`. -/
def clamp01 (t : ℝ) : ℝ := min (max t 0) 1

/-- Embeds `GraphObjects::magnitudeToColor`: clamp to `[0,1]`, then the
blue→cyan→green→yellow→red piecewise-linear gradient. -/
def magnitudeToColor (t0 : ℝ) : Vec3 :=
  let t := clamp01 t0
  if t < 0.25 then
    ⟨0, t / 0.25, 1⟩
  else if t < 0.5 then
    ⟨0, 1, 1 - (t - 0.25) / 0.25⟩
  else if t < 0.75 then
    ⟨(t - 0.5) / 0.25, 1, 0⟩
  else
    ⟨1, 1 - (t - 0.75) / 0.25, 0⟩

/-- Embeds `GraphObjects::heightToColor`. -/
def heightToColor (height minH maxH : ℝ) : Vec3 :=
  if maxH - minH < 1e-6 then ⟨0.5, 0.7, 1.0⟩
  else magnitudeToColor ((height - minH) / (maxH - minH))

/-- C7: `magnitudeToColor` first clamps its argument to `[0,1]` and then
applies the 4-segment piecewise-linear gradient; in particular every
`t ≤ 0` maps to blue `(0,0,1)` and every `t ≥ 1` maps to red `(1,0,0)`,
and `magnitudeToColor t = magnitudeToColor (clamp01 t)` for all `t`. -/
theorem C7_magnitudeToColor_clamps (t : ℝ) :
    magnitudeToColor t = magnitudeToColor (clamp01 t) ∧
    (t ≤ 0 → magnitudeToColor t = ⟨0, 0, 1⟩) ∧
    (1 ≤ t → magnitudeToColor t = ⟨1, 0, 0⟩) := by
  have hlo : 0 ≤ clamp01 t := le_min (le_max_right t 0) zero_le_one
  have hhi : clamp01 t ≤ 1 := min_le_right _ _
  have hclamp : clamp01 (clamp01 t) = clamp01 t := by
    show min (max (clamp01 t) 0) 1 = clamp01 t
    rw [max_eq_left hlo, min_eq_left hhi]
  refine ⟨by unfold magnitudeToColor; rw [hclamp], fun h => ?_, fun h => ?_⟩
  · have h0 : clamp01 t = 0 := by
      unfold clamp01
      rw [max_eq_right h, min_eq_left zero_le_one]
    unfold magnitudeToColor
    rw [h0]
    norm_num
  · have h1 : clamp01 t = 1 := by
      unfold clamp01
      rw [max_eq_left (by linarith : (0:ℝ) ≤ t), min_eq_right h]
    unfold magnitudeToColor
    rw [h1]
    norm_num

/-- Witness for C7 at the concrete inputs `t = -2` and `t = 3`. -/
theorem C7_magnitudeToColor_clamps_witness :
    magnitudeToColor (-2) = ⟨0, 0, 1⟩ ∧ magnitudeToColor 3 = ⟨1, 0, 0⟩ :=
  ⟨(C7_magnitudeToColor_clamps (-2)).2.1 (by norm_num),
   (C7_magnitudeToColor_clamps 3).2.2 (by norm_num)⟩

/-- Model of the source constant `GPI` (the float approximation of π is
idealized to the exact real π). -/
def GPI : ℝ := Real.pi

/-- Helper: length of a `flatMap` over `List.range` whose body always
produces `c` elements. -/
theorem length_flatMap_range_const {β : Type} (n : ℕ) (f : ℕ → List β) (c : ℕ)
    (h : ∀ i, (f i).length = c) : ((List.range n).flatMap f).length = n * c := by
  rw [List.length_flatMap]
  have hm : List.map (List.length ∘ f) (List.range n)
      = List.map (fun _ => c) (List.range n) := by
    apply List.map_congr_left
    intro i _
    exact h i
  rw [hm, List.map_const', List.sum_replicate, List.length_range]
  simp [Nat.mul_comm]

/-- Embeds `GraphObjects::generateArrowMesh`: cylindrical shaft, conical
head, and the two bottom caps, each a loop of `segments` iterations. -/
def generateArrowMesh (shaftLength shaftRadius headLength headRadius : ℝ)
    (segments : ℤ) (color : Vec3) : List VertexAttributes :=
  let shaft := (List.range segments.toNat).flatMap (fun i =>
    let a0 := 2 * GPI * (i : ℝ) / (segments : ℝ)
    let a1 := 2 * GPI * ((i : ℝ) + 1) / (segments : ℝ)
    let c0 := Real.cos a0
    let s0 := Real.sin a0
    let c1 := Real.cos a1
    let s1 := Real.sin a1
    let n0 : Vec3 := ⟨c0, s0, 0⟩
    let n1 : Vec3 := ⟨c1, s1, 0⟩
    let p00 : Vec3 := ⟨shaftRadius * c0, shaftRadius * s0, 0⟩
    let p01 : Vec3 := ⟨shaftRadius * c1, shaftRadius * s1, 0⟩
    let p10 : Vec3 := ⟨shaftRadius * c0, shaftRadius * s0, shaftLength⟩
    let p11 : Vec3 := ⟨shaftRadius * c1, shaftRadius * s1, shaftLength⟩
    [⟨p00, n0, color, (0, 0)⟩, ⟨p01, n1, color, (0, 0)⟩, ⟨p10, n0, color, (0, 0)⟩,
     ⟨p10, n0, color, (0, 0)⟩, ⟨p01, n1, color, (0, 0)⟩, ⟨p11, n1, color, (0, 0)⟩])
  let tip : Vec3 := ⟨0, 0, shaftLength + headLength⟩
  let hyp := Real.sqrt (headRadius * headRadius + headLength * headLength)
  let nr := headLength / hyp
  let nz := headRadius / hyp
  let cone := (List.range segments.toNat).flatMap (fun i =>
    let a0 := 2 * GPI * (i : ℝ) / (segments : ℝ)
    let a1 := 2 * GPI * ((i : ℝ) + 1) / (segments : ℝ)
    let c0 := Real.cos a0
    let s0 := Real.sin a0
    let c1 := Real.cos a1
    let s1 := Real.sin a1
    let base0 : Vec3 := ⟨headRadius * c0, headRadius * s0, shaftLength⟩
    let base1 : Vec3 := ⟨headRadius * c1, headRadius * s1, shaftLength⟩
    let n0 : Vec3 := ⟨nr * c0, nr * s0, nz⟩
    let n1 : Vec3 := ⟨nr * c1, nr * s1, nz⟩
    let nTip := Vec3.normalize (n0 + n1)
    [⟨base0, n0, color, (0, 0)⟩, ⟨base1, n1, color, (0, 0)⟩, ⟨tip, nTip, color, (0, 0)⟩])
  let capNormal : Vec3 := ⟨0, 0, -1⟩
  let cap1 := (List.range segments.toNat).flatMap (fun i =>
    let a0 := 2 * GPI * (i : ℝ) / (segments : ℝ)
    let a1 := 2 * GPI * ((i : ℝ) + 1) / (segments : ℝ)
    let p0 : Vec3 := ⟨shaftRadius * Real.cos a0, shaftRadius * Real.sin a0, 0⟩
    let p1 : Vec3 := ⟨shaftRadius * Real.cos a1, shaftRadius * Real.sin a1, 0⟩
    [⟨⟨0, 0, 0⟩, capNormal, color, (0, 0)⟩, ⟨p1, capNormal, color, (0, 0)⟩,
     ⟨p0, capNormal, color, (0, 0)⟩])
  let coneCapN : Vec3 := ⟨0, 0, -1⟩
  let cap2 := (List.range segments.toNat).flatMap (fun i =>
    let a0 := 2 * GPI * (i : ℝ) / (segments : ℝ)
    let a1 := 2 * GPI * ((i : ℝ) + 1) / (segments : ℝ)
    let p0 : Vec3 := ⟨headRadius * Real.cos a0, headRadius * Real.sin a0, shaftLength⟩
    let p1 : Vec3 := ⟨headRadius * Real.cos a1, headRadius * Real.sin a1, shaftLength⟩
    [⟨⟨0, 0, shaftLength⟩, coneCapN, color, (0, 0)⟩, ⟨p1, coneCapN, color, (0, 0)⟩,
     ⟨p0, coneCapN, color, (0, 0)⟩])
  shaft ++ cone ++ cap1 ++ cap2

/-- Length of the arrow mesh: 15 vertices per segment. -/
theorem generateArrowMesh_length (sl sr hl hr : ℝ) (s : ℤ) (c : Vec3) :
    (generateArrowMesh sl sr hl hr s c).length = 15 * s.toNat := by
  show (_ ++ _ ++ _ ++ _ : List VertexAttributes).length = 15 * s.toNat
  simp only [List.length_append]
  rw [length_flatMap_range_const _ _ 6 ?h1, length_flatMap_range_const _ _ 3 ?h2,
    length_flatMap_range_const _ _ 3 ?h3, length_flatMap_range_const _ _ 3 ?h4]
  case h1 => intro i; rfl
  case h2 => intro i; rfl
  case h3 => intro i; rfl
  case h4 => intro i; rfl
  ring

/-- Embeds the orientation routine repeated at every glyph placement
site: choose a reference axis not nearly parallel to `dir`, build an
orthonormal basis `(xAxis, yAxis, dir)` via two cross products. -/
def glyphBasis (dir : Vec3) : Vec3 × Vec3 :=
  let ref : Vec3 := if |dir.y| < 0.99 then ⟨0, 1, 0⟩ else ⟨1, 0, 0⟩
  let xAxis := Vec3.normalize (Vec3.cross ref dir)
  let yAxis := Vec3.cross dir xAxis
  (xAxis, yAxis)

/-- Embeds the rotate-and-translate loop repeated at every glyph
placement site. -/
def placeGlyph (dir pos : Vec3) (mesh : List VertexAttributes) :
    List VertexAttributes :=
  let b := glyphBasis dir
  mesh.map (fun v =>
    { v with
      position := v.position.x • b.1 + v.position.y • b.2 + v.position.z • dir + pos
      normal := v.normal.x • b.1 + v.normal.y • b.2 + v.normal.z • dir })

/-- Per-sample record of the first pass of `generateVectorField`
(the local `struct ArrowInfo`). -/
structure ArrowInfo where
  pos : Vec3
  dir : Vec3
  mag : ℝ

/-- Lattice step of the field generators:
`(rangeMax - rangeMin) / vec3(max(rx-1,1), max(ry-1,1), max(rz-1,1))`. -/
def latticeStep (rangeMin rangeMax : Vec3) (resolution : ℤ × ℤ × ℤ) : Vec3 :=
  ⟨(rangeMax.x - rangeMin.x) / ((max (resolution.1 - 1) 1 : ℤ) : ℝ),
   (rangeMax.y - rangeMin.y) / ((max (resolution.2.1 - 1) 1 : ℤ) : ℝ),
   (rangeMax.z - rangeMin.z) / ((max (resolution.2.2 - 1) 1 : ℤ) : ℝ)⟩

/-- First pass of `GraphObjects::generateVectorField`: evaluate the field
at every lattice point and record position, direction and magnitude. -/
def vectorFieldArrows (fieldFunc : Vec3 → Vec3) (rangeMin rangeMax : Vec3)
    (resolution : ℤ × ℤ × ℤ) : List ArrowInfo :=
  let step := latticeStep rangeMin rangeMax resolution
  (List.range resolution.1.toNat).flatMap (fun ix =>
    (List.range resolution.2.1.toNat).flatMap (fun iy =>
      (List.range resolution.2.2.toNat).map (fun iz =>
        let pos := rangeMin + (⟨ix, iy, iz⟩ : Vec3) * step
        let dir := fieldFunc pos
        { pos := pos, dir := dir, mag := Vec3.norm dir })))

/-- Maximum magnitude tracked in pass 1, seeded with the floor `0.001f`. -/
def vectorFieldMaxMag (fieldFunc : Vec3 → Vec3) (rangeMin rangeMax : Vec3)
    (resolution : ℤ × ℤ × ℤ) : ℝ :=
  (vectorFieldArrows fieldFunc rangeMin rangeMax resolution).foldl
    (fun m a => max m a.mag) 0.001

/-- Embeds `GraphObjects::generateVectorField`: two-pass lattice arrow
emission with magnitude normalization. -/
def generateVectorField (fieldFunc : Vec3 → Vec3) (rangeMin rangeMax : Vec3)
    (resolution : ℤ × ℤ × ℤ) (arrowScale : ℝ) : List VertexAttributes :=
  let arrows := vectorFieldArrows fieldFunc rangeMin rangeMax resolution
  let maxMag := vectorFieldMaxMag fieldFunc rangeMin rangeMax resolution
  let minLen := 0.05 * arrowScale
  let maxLen := 0.8 * arrowScale
  arrows.flatMap (fun arrow =>
    if arrow.mag < 1e-6 then []
    else
      let normalizedMag := arrow.mag / maxMag
      let len := minLen + (maxLen - minLen) * normalizedMag
      let color := magnitudeToColor normalizedMag
      let mesh := generateArrowMesh (len * 0.7) (len * 0.04) (len * 0.3)
        (len * 0.1) 6 color
      placeGlyph (Vec3.normalize arrow.dir) arrow.pos mesh)

/-- C9: the arrow mesh always has `15 * segments` vertices (6 shaft, 3
cone, 3 + 3 caps per segment), a count divisible by 3, and is empty for
`segments ≤ 0`. -/
theorem C9_generateArrowMesh_count (sl sr hl hr : ℝ) (s : ℤ) (c : Vec3) :
    (generateArrowMesh sl sr hl hr s c).length = 15 * s.toNat ∧
    3 ∣ (generateArrowMesh sl sr hl hr s c).length ∧
    (s ≤ 0 → generateArrowMesh sl sr hl hr s c = []) := by
  refine ⟨generateArrowMesh_length sl sr hl hr s c, ?_, fun hs => ?_⟩
  · rw [generateArrowMesh_length]
    exact ⟨5 * s.toNat, by ring⟩
  · have h0 : s.toNat = 0 := Int.toNat_of_nonpos hs
    unfold generateArrowMesh
    rw [h0]
    simp

/-- Witness for C9 at `segments = 2` (count) and `segments = -1` (empty). -/
theorem C9_generateArrowMesh_count_witness :
    (generateArrowMesh 1 1 1 1 2 ⟨1, 0, 0⟩).length = 30 ∧
    generateArrowMesh 1 1 1 1 (-1) ⟨1, 0, 0⟩ = [] := by
  refine ⟨?_, (C9_generateArrowMesh_count 1 1 1 1 (-1) ⟨1, 0, 0⟩).2.2 (by norm_num)⟩
  rw [(C9_generateArrowMesh_count 1 1 1 1 2 ⟨1, 0, 0⟩).1]
  rfl

/-- Embeds `GraphObjects::generateParametricCurve`: `segments` disjoint
line segments sampled uniformly (the `for` loop runs only for positive
`segments`). -/
def generateParametricCurve (curveFunc : ℝ → Vec3) (tMin tMax : ℝ)
    (segments : ℤ) (color : Vec3) : List VertexAttributes :=
  let dt := (tMax - tMin) / (segments : ℝ)
  (List.range segments.toNat).flatMap (fun i =>
    let t0 := tMin + (i : ℝ) * dt
    let t1 := tMin + ((i : ℝ) + 1) * dt
    let p0 := curveFunc t0
    let p1 := curveFunc t1
    [⟨p0, ⟨0, 0, 0⟩, color, (0, 0)⟩, ⟨p1, ⟨0, 0, 0⟩, color, (0, 0)⟩])

/-- Curve samples of `generateParametricCurveTube`:
`points[i] = curveFunc(tMin + i*dt)` for `0 ≤ i ≤ s`. -/
def curveTubePoints (curveFunc : ℝ → Vec3) (tMin tMax : ℝ) (s : ℕ)
    (i : ℕ) : Vec3 :=
  curveFunc (tMin + (i : ℝ) * ((tMax - tMin) / (s : ℝ)))

/-- Finite-difference tangent of the tube before normalization:
central difference inside, one-sided at the two ends. -/
def curveTubeTangentPre (curveFunc : ℝ → Vec3) (tMin tMax : ℝ) (s : ℕ)
    (i : ℕ) : Vec3 :=
  let points := curveTubePoints curveFunc tMin tMax s
  let fwd := if i < s then points (i + 1) - points i else points i - points (i - 1)
  let bwd := if 0 < i then points i - points (i - 1) else fwd
  (0.5 : ℝ) • (fwd + bwd)

/-- Normalized tube tangents (`tangents[i]` of the source). -/
def curveTubeTangents (curveFunc : ℝ → Vec3) (tMin tMax : ℝ) (s : ℕ)
    (i : ℕ) : Vec3 :=
  Vec3.normalize (curveTubeTangentPre curveFunc tMin tMax s i)

/-- Rotation-minimizing frame normals of the tube (`normals[i]`):
seeded from a reference axis not parallel to the first tangent, then
propagated by projecting the previous normal onto the plane orthogonal
to the new tangent, falling back to the previous binormal when the
projection is degenerate. -/
def curveTubeNormals (curveFunc : ℝ → Vec3) (tMin tMax : ℝ) (s : ℕ) :
    ℕ → Vec3
  | 0 =>
    let t0 := curveTubeTangents curveFunc tMin tMax s 0
    let ref : Vec3 := if |t0.y| < 0.9 then ⟨0, 1, 0⟩ else ⟨1, 0, 0⟩
    Vec3.normalize (Vec3.cross t0 ref)
  | i + 1 =>
    let prevN := curveTubeNormals curveFunc tMin tMax s i
    let prevB := Vec3.cross (curveTubeTangents curveFunc tMin tMax s i) prevN
    let ti := curveTubeTangents curveFunc tMin tMax s (i + 1)
    let projected := prevN - Vec3.dot prevN ti • ti
    let len := Vec3.norm projected
    if len > 1e-8 then projected.divs len else prevB

/-- Tube binormals (`binormals[i] = cross(tangents[i], normals[i])`). -/
def curveTubeBinormals (curveFunc : ℝ → Vec3) (tMin tMax : ℝ) (s : ℕ)
    (i : ℕ) : Vec3 :=
  Vec3.cross (curveTubeTangents curveFunc tMin tMax s i)
    (curveTubeNormals curveFunc tMin tMax s i)

/-- Embeds `GraphObjects::generateParametricCurveTube`: guard, ring
construction and the two triangles per quad face. -/
def generateParametricCurveTube (curveFunc : ℝ → Vec3) (tMin tMax : ℝ)
    (segments : ℤ) (tubeRadius : ℝ) (tubeSegments : ℤ) (color : Vec3) :
    List VertexAttributes :=
  if segments < 1 then []
  else
    let s := segments.toNat
    let points := curveTubePoints curveFunc tMin tMax s
    let normals := curveTubeNormals curveFunc tMin tMax s
    let binormals := curveTubeBinormals curveFunc tMin tMax s
    let ringPoint := fun (curveIdx ringIdx : ℕ) =>
      let angle := 2 * GPI * (ringIdx : ℝ) / (tubeSegments : ℝ)
      points curveIdx +
        tubeRadius • (Real.cos angle • normals curveIdx +
          Real.sin angle • binormals curveIdx)
    let ringNormal := fun (curveIdx ringIdx : ℕ) =>
      let angle := 2 * GPI * (ringIdx : ℝ) / (tubeSegments : ℝ)
      Vec3.normalize (Real.cos angle • normals curveIdx +
        Real.sin angle • binormals curveIdx)
    (List.range s).flatMap (fun i =>
      (List.range tubeSegments.toNat).flatMap (fun j =>
        let j1 := (j + 1) % tubeSegments.toNat
        [⟨ringPoint i j, ringNormal i j, color, (0, 0)⟩,
         ⟨ringPoint i j1, ringNormal i j1, color, (0, 0)⟩,
         ⟨ringPoint (i + 1) j, ringNormal (i + 1) j, color, (0, 0)⟩,
         ⟨ringPoint (i + 1) j, ringNormal (i + 1) j, color, (0, 0)⟩,
         ⟨ringPoint i j1, ringNormal i j1, color, (0, 0)⟩,
         ⟨ringPoint (i + 1) j1, ringNormal (i + 1) j1, color, (0, 0)⟩]))

/-- C1: for `tMin < tMax`, `segments ≥ 1` and `tubeSegments ≥ 3` the tube
is a triangle list with exactly `segments * tubeSegments * 6` vertices
(two triangles per quad face, one quad per ring pair and tube side). -/
theorem C1_generateParametricCurveTube_count (curveFunc : ℝ → Vec3)
    (tMin tMax : ℝ) (segments : ℤ) (tubeRadius : ℝ) (tubeSegments : ℤ)
    (color : Vec3) (hst : tMin < tMax) (hs : 1 ≤ segments) (hn : 3 ≤ tubeSegments) :
    (generateParametricCurveTube curveFunc tMin tMax segments tubeRadius
      tubeSegments color).length = segments.toNat * tubeSegments.toNat * 6 := by
  unfold generateParametricCurveTube
  rw [if_neg (by omega)]
  show ((List.range segments.toNat).flatMap _).length = _
  rw [length_flatMap_range_const _ _ (tubeSegments.toNat * 6) ?h]
  case h =>
    intro i
    refine length_flatMap_range_const _ _ 6 ?_
    intro j
    rfl
  ring

/-- Witness for C1: the helix scenario, 200 segments and 8 tube sides,
gives a 9600-vertex mesh. -/
theorem C1_generateParametricCurveTube_count_witness :
    (generateParametricCurveTube
      (fun t => ⟨Real.cos t, Real.sin t, t / (2 * GPI)⟩)
      0 (2 * GPI) 200 0.03 8 ⟨1, 1, 0⟩).length = 9600 := by
  rw [C1_generateParametricCurveTube_count
    (fun t => ⟨Real.cos t, Real.sin t, t / (2 * GPI)⟩) 0 (2 * GPI) 200 0.03 8
    ⟨1, 1, 0⟩ (by unfold GPI; have := Real.pi_pos; linarith) (by norm_num)
    (by norm_num)]
  rfl

/-- Finite-difference surface normal of `generateParametricSurface` at a
grid parameter `(u, v)`: central differences of `∂p/∂u` and `∂p/∂v`
with `eps = 1e-4`, crossed and normalized, with fallback `(0,0,1)` when
the cross product is degenerate. -/
def surfaceNormalAt (surfaceFunc : ℝ → ℝ → Vec3) (u v : ℝ) : Vec3 :=
  let eps : ℝ := 1e-4
  let dpdu := (surfaceFunc (u + eps) v - surfaceFunc (u - eps) v).divs (2 * eps)
  let dpdv := (surfaceFunc u (v + eps) - surfaceFunc u (v - eps)).divs (2 * eps)
  let n := Vec3.cross dpdu dpdv
  let len := Vec3.norm n
  if len > 1e-8 then n.divs len else ⟨0, 0, 1⟩

/-- Grid positions (`positions[i][j]`) of `generateParametricSurface`. -/
def surfacePositions (surfaceFunc : ℝ → ℝ → Vec3) (uMin uMax vMin vMax : ℝ)
    (uSegments vSegments : ℤ) (i j : ℕ) : Vec3 :=
  surfaceFunc (uMin + (i : ℝ) * ((uMax - uMin) / (uSegments : ℝ)))
    (vMin + (j : ℝ) * ((vMax - vMin) / (vSegments : ℝ)))

/-- Grid heights scanned by the `minH`/`maxH` pass of
`generateParametricSurface`, in loop order. -/
def surfaceHeights (surfaceFunc : ℝ → ℝ → Vec3) (uMin uMax vMin vMax : ℝ)
    (uSegments vSegments : ℤ) : List ℝ :=
  (List.range (uSegments + 1).toNat).flatMap (fun i =>
    (List.range (vSegments + 1).toNat).map (fun j =>
      (surfacePositions surfaceFunc uMin uMax vMin vMax uSegments vSegments
        i j).z))

/-- Minimum height (`minH`, seeded `1e9`) of `generateParametricSurface`. -/
def surfaceMinH (surfaceFunc : ℝ → ℝ → Vec3) (uMin uMax vMin vMax : ℝ)
    (uSegments vSegments : ℤ) : ℝ :=
  (surfaceHeights surfaceFunc uMin uMax vMin vMax uSegments vSegments).foldl
    min 1e9

/-- Maximum height (`maxH`, seeded `-1e9`) of
`generateParametricSurface`. -/
def surfaceMaxH (surfaceFunc : ℝ → ℝ → Vec3) (uMin uMax vMin vMax : ℝ)
    (uSegments vSegments : ℤ) : ℝ :=
  (surfaceHeights surfaceFunc uMin uMax vMin vMax uSegments vSegments).foldl
    max (-1e9)

/-- Grid normals (`normals[i][j]`) of `generateParametricSurface`. -/
def surfaceNormals (surfaceFunc : ℝ → ℝ → Vec3) (uMin uMax vMin vMax : ℝ)
    (uSegments vSegments : ℤ) (i j : ℕ) : Vec3 :=
  surfaceNormalAt surfaceFunc
    (uMin + (i : ℝ) * ((uMax - uMin) / (uSegments : ℝ)))
    (vMin + (j : ℝ) * ((vMax - vMin) / (vSegments : ℝ)))

/-- Per-vertex color of `generateParametricSurface` (`c00` etc.):
height-mapped or the fixed neutral color. -/
def surfaceVertexColor (surfaceFunc : ℝ → ℝ → Vec3) (uMin uMax vMin vMax : ℝ)
    (uSegments vSegments : ℤ) (colorByHeight : Bool) (i j : ℕ) : Vec3 :=
  if colorByHeight then
    heightToColor
      (surfacePositions surfaceFunc uMin uMax vMin vMax uSegments vSegments
        i j).z
      (surfaceMinH surfaceFunc uMin uMax vMin vMax uSegments vSegments)
      (surfaceMaxH surfaceFunc uMin uMax vMin vMax uSegments vSegments)
  else ⟨0.5, 0.7, 1.0⟩

/-- One emitted vertex of `generateParametricSurface` at grid index
`(i, j)`: position, finite-difference normal, color and zero uv. -/
def surfaceVertex (surfaceFunc : ℝ → ℝ → Vec3) (uMin uMax vMin vMax : ℝ)
    (uSegments vSegments : ℤ) (colorByHeight : Bool) (i j : ℕ) :
    VertexAttributes :=
  ⟨surfacePositions surfaceFunc uMin uMax vMin vMax uSegments vSegments i j,
   surfaceNormals surfaceFunc uMin uMax vMin vMax uSegments vSegments i j,
   surfaceVertexColor surfaceFunc uMin uMax vMin vMax uSegments vSegments
     colorByHeight i j,
   (0, 0)⟩

/-- Triangle list of `generateParametricSurface` (the body after the
grid allocations succeed).  The sampling loops `i ≤ uSegments`,
`j ≤ vSegments` become ranges of `(uSegments+1).toNat` and the emission
loops `i < uSegments`, `j < vSegments` ranges of `uSegments.toNat`;
each cell emits the two triangles `p00 p10 p11` and `p00 p11 p01`. -/
def parametricSurfaceVerts (surfaceFunc : ℝ → ℝ → Vec3)
    (uMin uMax vMin vMax : ℝ) (uSegments vSegments : ℤ)
    (colorByHeight : Bool) : List VertexAttributes :=
  let sv := surfaceVertex surfaceFunc uMin uMax vMin vMax uSegments vSegments
    colorByHeight
  (List.range uSegments.toNat).flatMap (fun i =>
    (List.range vSegments.toNat).flatMap (fun j =>
      [sv i j, sv (i + 1) j, sv (i + 1) (j + 1),
       sv i j, sv (i + 1) (j + 1), sv i (j + 1)]))

/-- Embeds `GraphObjects::generateParametricSurface`.  The source first
allocates `std::vector` grids of `uSegments+1` rows of `vSegments+1`
entries; for `uSegments ≤ -2` or `vSegments ≤ -2` that size converts to
a huge `size_t` and the constructor throws `std::length_error`, which is
modelled here as `none`. -/
def generateParametricSurface (surfaceFunc : ℝ → ℝ → Vec3)
    (uMin uMax vMin vMax : ℝ) (uSegments vSegments : ℤ)
    (colorByHeight : Bool) : Option (List VertexAttributes) :=
  if uSegments + 1 < 0 ∨ vSegments + 1 < 0 then none
  else some (parametricSurfaceVerts surfaceFunc uMin uMax vMin vMax
    uSegments vSegments colorByHeight)

/-- The flat test surface `f(u, v) = (u, v, 0)` of the spec scenario. -/
def flatSurface : ℝ → ℝ → Vec3 := fun u v => ⟨u, v, 0⟩

/-- On the flat surface the finite-difference normal is exactly
`(0, 0, 1)` at every parameter. -/
theorem surfaceNormalAt_flat (u v : ℝ) :
    surfaceNormalAt flatSurface u v = ⟨0, 0, 1⟩ := by
  unfold surfaceNormalAt flatSurface
  dsimp only
  have hdu : ((⟨u + 1e-4, v, 0⟩ : Vec3) - ⟨u - 1e-4, v, 0⟩).divs (2 * 1e-4)
      = ⟨1, 0, 0⟩ := by
    unfold Vec3.divs
    simp only [Vec3.sub_def]
    norm_num
  have hdv : ((⟨u, v + 1e-4, 0⟩ : Vec3) - ⟨u, v - 1e-4, 0⟩).divs (2 * 1e-4)
      = ⟨0, 1, 0⟩ := by
    unfold Vec3.divs
    simp only [Vec3.sub_def]
    norm_num
  rw [hdu, hdv]
  have hcross : Vec3.cross ⟨1, 0, 0⟩ ⟨0, 1, 0⟩ = ⟨0, 0, 1⟩ := by
    unfold Vec3.cross
    norm_num
  rw [hcross]
  have hlen : Vec3.norm ⟨0, 0, 1⟩ = 1 := by
    unfold Vec3.norm Vec3.normSq
    norm_num
  rw [hlen]
  rw [if_pos (by norm_num)]
  unfold Vec3.divs
  norm_num

/-- C6: `generateParametricSurface` uses normalized cross products of
central finite differences as vertex normals (fallback `(0,0,1)` when
degenerate); on the flat surface `f(u,v) = (u,v,0)` with
`uSegments, vSegments ≥ 1` every emitted vertex normal is exactly
`(0, 0, 1)`. -/
theorem C6_generateParametricSurface_flat_normals (uMin uMax vMin vMax : ℝ)
    (uSegments vSegments : ℤ) (colorByHeight : Bool)
    (hu : 1 ≤ uSegments) (hv : 1 ≤ vSegments) :
    generateParametricSurface flatSurface uMin uMax vMin vMax uSegments
      vSegments colorByHeight
      = some (parametricSurfaceVerts flatSurface uMin uMax vMin vMax
        uSegments vSegments colorByHeight) ∧
    ∀ w ∈ parametricSurfaceVerts flatSurface uMin uMax vMin vMax uSegments
      vSegments colorByHeight, w.normal = ⟨0, 0, 1⟩ := by
  have hvn : ∀ i j : ℕ,
      (surfaceVertex flatSurface uMin uMax vMin vMax uSegments vSegments
        colorByHeight i j).normal = ⟨0, 0, 1⟩ := by
    intro i j
    show surfaceNormals flatSurface uMin uMax vMin vMax uSegments vSegments
      i j = ⟨0, 0, 1⟩
    unfold surfaceNormals
    exact surfaceNormalAt_flat _ _
  constructor
  · unfold generateParametricSurface
    rw [if_neg (by omega)]
  · intro w hw
    simp only [parametricSurfaceVerts] at hw
    obtain ⟨i, hi, hw⟩ := List.mem_flatMap.mp hw
    obtain ⟨j, hj, hw⟩ := List.mem_flatMap.mp hw
    simp only [List.mem_cons, List.not_mem_nil, or_false] at hw
    rcases hw with rfl | rfl | rfl | rfl | rfl | rfl
    all_goals apply hvn

/-- Witness for C6 on the unit parameter square with one cell. -/
theorem C6_generateParametricSurface_flat_normals_witness :
    generateParametricSurface flatSurface 0 1 0 1 1 1 false
      = some (parametricSurfaceVerts flatSurface 0 1 0 1 1 1 false) ∧
    ∀ w ∈ parametricSurfaceVerts flatSurface 0 1 0 1 1 1 false,
      w.normal = ⟨0, 0, 1⟩ :=
  C6_generateParametricSurface_flat_normals 0 1 0 1 1 1 false (by norm_num)
    (by norm_num)

/-- C4: evaluation of the generators at `segments`/`resolution < 1`.
The curve, tube and lattice generators degrade to an empty mesh (loops
simply do not run, or an explicit guard returns early), but
`generateParametricSurface` with `uSegments = -2` fails (`none`: the
source allocates a `std::vector` of size `uSegments + 1 = -1`, which
converts to a huge `size_t` and throws `std::length_error`), so the
claimed always-graceful behavior does not hold there. -/
theorem C4_segments_lt_one_eval :
    generateParametricCurve (fun t => ⟨t, 0, 0⟩) 0 1 0 ⟨1, 1, 0⟩ = [] ∧
    generateParametricCurve (fun t => ⟨t, 0, 0⟩) 0 1 (-3) ⟨1, 1, 0⟩ = [] ∧
    generateParametricCurveTube (fun t => ⟨t, 0, 0⟩) 0 1 0 0.03 8 ⟨1, 1, 0⟩ = [] ∧
    generateParametricCurveTube (fun t => ⟨t, 0, 0⟩) 0 1 (-5) 0.03 8 ⟨1, 1, 0⟩ = [] ∧
    generateVectorField (fun p => p) ⟨0, 0, 0⟩ ⟨1, 1, 1⟩ (0, 2, 2) 1 = [] ∧
    generateParametricSurface flatSurface 0 1 0 1 0 3 true
      = some (parametricSurfaceVerts flatSurface 0 1 0 1 0 3 true) ∧
    parametricSurfaceVerts flatSurface 0 1 0 1 0 3 true = [] ∧
    generateParametricSurface flatSurface 0 1 0 1 (-2) 3 true = none := by
  refine ⟨?_, ?_, ?_, ?_, ?_, ?_, ?_, ?_⟩
  · show ((List.range (0 : ℤ).toNat).flatMap _ : List VertexAttributes) = []
    simp
  · show ((List.range (-3 : ℤ).toNat).flatMap _ : List VertexAttributes) = []
    simp
  · unfold generateParametricCurveTube
    rw [if_pos (by norm_num)]
  · unfold generateParametricCurveTube
    rw [if_pos (by norm_num)]
  · show ((vectorFieldArrows _ _ _ _).flatMap _ : List VertexAttributes) = []
    rw [List.flatMap_eq_nil_iff]
    intro a ha
    simp only [vectorFieldArrows] at ha
    obtain ⟨ix, hix, ha⟩ := List.mem_flatMap.mp ha
    simp at hix
  · unfold generateParametricSurface
    rw [if_neg (by decide)]
  · show ((List.range (0 : ℤ).toNat).flatMap _ : List VertexAttributes) = []
    simp
  · unfold generateParametricSurface
    rw [if_pos (by decide)]

/-- RK4-averaged velocity of one integration step of
`generateStreamlines`. -/
def rk4Vel (fieldFunc : Vec3 → Vec3) (stepSize : ℝ) (pos : Vec3) : Vec3 :=
  let k1 := fieldFunc pos
  let k2 := fieldFunc (pos + (stepSize * 0.5) • k1)
  let k3 := fieldFunc (pos + (stepSize * 0.5) • k2)
  let k4 := fieldFunc (pos + stepSize • k3)
  (k1 + (2 : ℝ) • k2 + (2 : ℝ) • k3 + k4).divs 6

/-- Bounds test of `generateStreamlines`: the next position is outside
the axis-aligned box `[rangeMin, rangeMax]`. -/
def outOfBox (rangeMin rangeMax p : Vec3) : Prop :=
  p.x < rangeMin.x ∨ p.x > rangeMax.x ∨ p.y < rangeMin.y ∨ p.y > rangeMax.y ∨
    p.z < rangeMin.z ∨ p.z > rangeMax.z

/-- The RK4 integration loop of `generateStreamlines` after the seed
point: at most `fuel` further points, stopping early on stagnation
(`|vel| < 1e-6`) or on leaving the bounding box. -/
def streamTail (fieldFunc : Vec3 → Vec3) (rangeMin rangeMax : Vec3)
    (stepSize : ℝ) : ℕ → Vec3 → List Vec3
  | 0, _ => []
  | n + 1, pos =>
    let vel := rk4Vel fieldFunc stepSize pos
    let mag := Vec3.norm vel
    if mag < 1e-6 then []
    else
      let newPos := pos + stepSize • vel
      if outOfBox rangeMin rangeMax newPos then []
      else newPos :: streamTail fieldFunc rangeMin rangeMax stepSize n newPos

/-- One full streamline of `generateStreamlines`: the seed followed by
at most `maxSteps = 200` integrated points. -/
def integrateStreamline (fieldFunc : Vec3 → Vec3) (rangeMin rangeMax : Vec3)
    (stepSize : ℝ) (pos : Vec3) : List Vec3 :=
  pos :: streamTail fieldFunc rangeMin rangeMax stepSize 200 pos

/-- Embeds `GraphObjects::generateStreamlines`: one streamline per
lattice point, emitted as disjoint line segments colored by the `z`
index of the start point (`numStreamlines` is unused in the source). -/
def generateStreamlines (fieldFunc : Vec3 → Vec3) (rangeMin rangeMax : Vec3)
    (resolution : ℤ × ℤ × ℤ) (numStreamlines : ℤ) (stepSize : ℝ) :
    List VertexAttributes :=
  let step := latticeStep rangeMin rangeMax resolution
  (List.range resolution.1.toNat).flatMap (fun ix =>
    (List.range resolution.2.1.toNat).flatMap (fun iy =>
      (List.range resolution.2.2.toNat).flatMap (fun iz =>
        let pos := rangeMin + (⟨ix, iy, iz⟩ : Vec3) * step
        let streamline := integrateStreamline fieldFunc rangeMin rangeMax
          stepSize pos
        let zNorm := (iz : ℝ) / ((max (resolution.2.2 - 1) 1 : ℤ) : ℝ)
        let color := magnitudeToColor zNorm
        (streamline.zip streamline.tail).flatMap (fun pq =>
          [⟨pq.1, ⟨0, 1, 0⟩, color, (0, 0)⟩, ⟨pq.2, ⟨0, 1, 0⟩, color, (0, 0)⟩]))))

/-- The integration loop emits at most `fuel` points. -/
theorem streamTail_length_le (fieldFunc : Vec3 → Vec3)
    (rangeMin rangeMax : Vec3) (stepSize : ℝ) (n : ℕ) (pos : Vec3) :
    (streamTail fieldFunc rangeMin rangeMax stepSize n pos).length ≤ n := by
  induction n generalizing pos with
  | zero => simp [streamTail]
  | succ n ih =>
      rw [streamTail]
      dsimp only
      split
      · simp
      · split
        · simp
        · simpa using Nat.succ_le_succ (ih _)

/-- C3: every streamline of `generateStreamlines` halts after at most
200 RK4 steps (so the polyline has at most 201 points), and integration
stops immediately when the RK4-averaged velocity magnitude is below
`1e-6` or when the next position leaves the bounding box. -/
theorem C3_streamline_step_bound (fieldFunc : Vec3 → Vec3)
    (rangeMin rangeMax : Vec3) (stepSize : ℝ) (pos : Vec3) :
    (integrateStreamline fieldFunc rangeMin rangeMax stepSize pos).length ≤ 201 ∧
    (Vec3.norm (rk4Vel fieldFunc stepSize pos) < 1e-6 →
      integrateStreamline fieldFunc rangeMin rangeMax stepSize pos = [pos]) ∧
    (outOfBox rangeMin rangeMax
        (pos + stepSize • rk4Vel fieldFunc stepSize pos) →
      integrateStreamline fieldFunc rangeMin rangeMax stepSize pos = [pos]) := by
  refine ⟨?_, fun hstag => ?_, fun hout => ?_⟩
  · show ((pos :: streamTail fieldFunc rangeMin rangeMax stepSize 200 pos)).length ≤ 201
    have := streamTail_length_le fieldFunc rangeMin rangeMax stepSize 200 pos
    simpa using Nat.succ_le_succ this
  · show pos :: streamTail fieldFunc rangeMin rangeMax stepSize 200 pos = [pos]
    rw [streamTail]
    rw [if_pos hstag]
  · show pos :: streamTail fieldFunc rangeMin rangeMax stepSize 200 pos = [pos]
    rw [streamTail]
    by_cases hstag : Vec3.norm (rk4Vel fieldFunc stepSize pos) < 1e-6
    · rw [if_pos hstag]
    · rw [if_neg hstag, if_pos hout]

/-- Witness for C3: the zero field stagnates at the origin at once. -/
theorem C3_streamline_step_bound_witness :
    (integrateStreamline (fun _ => 0) ⟨0, 0, 0⟩ ⟨1, 1, 1⟩ 1 ⟨0, 0, 0⟩).length ≤ 201 ∧
    integrateStreamline (fun _ => 0) ⟨0, 0, 0⟩ ⟨1, 1, 1⟩ 1 ⟨0, 0, 0⟩ = [⟨0, 0, 0⟩] := by
  have hstag : Vec3.norm (rk4Vel (fun _ => (0 : Vec3)) 1 ⟨0, 0, 0⟩) < 1e-6 := by
    have hv : rk4Vel (fun _ => (0 : Vec3)) 1 ⟨0, 0, 0⟩ = ⟨0, 0, 0⟩ := by
      unfold rk4Vel Vec3.divs
      simp
    rw [hv]
    have : Vec3.norm ⟨0, 0, 0⟩ = 0 := Vec3.norm_zero
    rw [this]
    norm_num
  exact ⟨(C3_streamline_step_bound (fun _ => 0) ⟨0, 0, 0⟩ ⟨1, 1, 1⟩ 1 ⟨0, 0, 0⟩).1,
    (C3_streamline_step_bound (fun _ => 0) ⟨0, 0, 0⟩ ⟨1, 1, 1⟩ 1 ⟨0, 0, 0⟩).2.1 hstag⟩

/-- Length of a placed glyph equals the length of the canonical mesh. -/
theorem placeGlyph_length (dir pos : Vec3) (mesh : List VertexAttributes) :
    (placeGlyph dir pos mesh).length = mesh.length := by
  simp [placeGlyph]

/-- Central-difference first derivative computed by
`generateFrenetFrame` at the selected parameter. -/
def frenetR1 (curveFunc : ℝ → Vec3) (tMin tMax tNorm : ℝ) : Vec3 :=
  let t := tMin + tNorm * (tMax - tMin)
  let eps := (tMax - tMin) * 1e-4
  (curveFunc (t + eps) - curveFunc (t - eps)).divs (2 * eps)

/-- Central-difference second derivative (`r2`) of `generateFrenetFrame`. -/
def frenetR2 (curveFunc : ℝ → Vec3) (tMin tMax tNorm : ℝ) : Vec3 :=
  let t := tMin + tNorm * (tMax - tMin)
  let eps := (tMax - tMin) * 1e-4
  (curveFunc (t + eps) - (2 : ℝ) • curveFunc t + curveFunc (t - eps)).divs
    (eps * eps)

/-- Unit tangent `T = r1 / |r1|` of `generateFrenetFrame`. -/
def frenetT (curveFunc : ℝ → Vec3) (tMin tMax tNorm : ℝ) : Vec3 :=
  (frenetR1 curveFunc tMin tMax tNorm).divs
    (Vec3.norm (frenetR1 curveFunc tMin tMax tNorm))

/-- Normal component `nComp = r2 - (r2·T)T` of `generateFrenetFrame`. -/
def frenetNComp (curveFunc : ℝ → Vec3) (tMin tMax tNorm : ℝ) : Vec3 :=
  let T := frenetT curveFunc tMin tMax tNorm
  frenetR2 curveFunc tMin tMax tNorm -
    Vec3.dot (frenetR2 curveFunc tMin tMax tNorm) T • T

/-- Frenet normal `N` of `generateFrenetFrame`: the normalized normal
component, or an arbitrary perpendicular of `T` when the curvature is
degenerate. -/
def frenetN (curveFunc : ℝ → Vec3) (tMin tMax tNorm : ℝ) : Vec3 :=
  let T := frenetT curveFunc tMin tMax tNorm
  let nComp := frenetNComp curveFunc tMin tMax tNorm
  let nMag := Vec3.norm nComp
  if nMag > 1e-6 then nComp.divs nMag
  else
    let ref : Vec3 := if |T.y| < 0.9 then ⟨0, 1, 0⟩ else ⟨1, 0, 0⟩
    Vec3.normalize (Vec3.cross T ref)

/-- Frenet binormal `B = T × N` of `generateFrenetFrame`. -/
def frenetB (curveFunc : ℝ → Vec3) (tMin tMax tNorm : ℝ) : Vec3 :=
  Vec3.cross (frenetT curveFunc tMin tMax tNorm)
    (frenetN curveFunc tMin tMax tNorm)

/-- Embeds `GraphObjects::generateFrenetFrame`: three colored arrows
(tangent, normal, binormal) at one curve parameter, or nothing when the
first derivative is degenerate.  The locals `r1`, `r2`, `T`, `N`, `B` of
the source are the named definitions above. -/
def generateFrenetFrame (curveFunc : ℝ → Vec3) (tMin tMax tNorm : ℝ)
    (arrowScale : ℝ) : List VertexAttributes :=
  let t := tMin + tNorm * (tMax - tMin)
  let r1Mag := Vec3.norm (frenetR1 curveFunc tMin tMax tNorm)
  if r1Mag < 1e-6 then []
  else
    let T := frenetT curveFunc tMin tMax tNorm
    let N := frenetN curveFunc tMin tMax tNorm
    let B := frenetB curveFunc tMin tMax tNorm
    let pos := curveFunc t
    ([(T, (⟨1, 0, 0⟩ : Vec3)), (N, ⟨0, 1, 0⟩), (B, ⟨0, 0, 1⟩)]).flatMap
      (fun dc =>
        let len := arrowScale
        let mesh := generateArrowMesh (len * 0.7) (len * 0.025) (len * 0.3)
          (len * 0.07) 6 dc.2
        placeGlyph dc.1 pos mesh)

/-- C10: `generateFrenetFrame` returns an empty mesh exactly when the
central-difference first derivative has magnitude below `1e-6`;
otherwise it emits all three arrows (270 vertices), the
arbitrary-perpendicular fallback applying only to a degenerate normal
projection. -/
theorem C10_generateFrenetFrame_degenerate_tangent (curveFunc : ℝ → Vec3)
    (tMin tMax tNorm arrowScale : ℝ) :
    (Vec3.norm (frenetR1 curveFunc tMin tMax tNorm) < 1e-6 →
      generateFrenetFrame curveFunc tMin tMax tNorm arrowScale = []) ∧
    (¬ Vec3.norm (frenetR1 curveFunc tMin tMax tNorm) < 1e-6 →
      (generateFrenetFrame curveFunc tMin tMax tNorm arrowScale).length = 270) := by
  constructor <;> intro h
  · unfold generateFrenetFrame
    dsimp only
    rw [if_pos (by unfold frenetR1 at h; exact h)]
  · unfold generateFrenetFrame
    dsimp only
    rw [if_neg (by unfold frenetR1 at h; exact h)]
    simp only [List.flatMap_cons, List.flatMap_nil, List.length_append,
      List.length_nil, placeGlyph_length, generateArrowMesh_length]
    rfl

/-- Witness for C10: a constant curve (degenerate tangent, empty mesh)
and a straight line (270 vertices). -/
theorem C10_generateFrenetFrame_degenerate_tangent_witness :
    generateFrenetFrame (fun _ => ⟨1, 2, 3⟩) 0 1 0.5 1 = [] ∧
    (generateFrenetFrame (fun t => ⟨t, 0, 0⟩) 0 1 0.5 1).length = 270 := by
  constructor
  · refine (C10_generateFrenetFrame_degenerate_tangent
      (fun _ => ⟨1, 2, 3⟩) 0 1 0.5 1).1 ?_
    have hz : frenetR1 (fun _ => (⟨1, 2, 3⟩ : Vec3)) 0 1 0.5 = ⟨0, 0, 0⟩ := by
      unfold frenetR1 Vec3.divs
      simp
    rw [hz]
    have h0 : Vec3.norm ⟨0, 0, 0⟩ = 0 := Vec3.norm_zero
    rw [h0]
    norm_num
  · refine (C10_generateFrenetFrame_degenerate_tangent
      (fun t => ⟨t, 0, 0⟩) 0 1 0.5 1).2 ?_
    have hone : frenetR1 (fun t => (⟨t, 0, 0⟩ : Vec3)) 0 1 0.5 = ⟨1, 0, 0⟩ := by
      unfold frenetR1 Vec3.divs
      simp only [Vec3.sub_def]
      norm_num
    rw [hone]
    have h1 : Vec3.norm ⟨1, 0, 0⟩ = 1 := by
      unfold Vec3.norm Vec3.normSq
      norm_num
    rw [h1]
    norm_num

theorem Vec3.norm_sub_comm (a b : Vec3) :
    Vec3.norm (a - b) = Vec3.norm (b - a) := by
  unfold Vec3.norm
  rw [Vec3.normSq_sub_comm]

/-- Grid parameter of the overlay generators:
`uMin + (uMax - uMin) * i / max(count - 1, 1)`. -/
def overlaySample (uMin uMax : ℝ) (count : ℤ) (i : ℕ) : ℝ :=
  uMin + (uMax - uMin) * (i : ℝ) / ((max (count - 1) 1 : ℤ) : ℝ)

/-- Candidate-rejection test of the surface glyph generators: the
position is within the minimum distance `0.1` of an already-placed
glyph position. -/
def tooCloseTo (placed : List Vec3) (pos : Vec3) : Prop :=
  ∃ q ∈ placed, Vec3.norm (pos - q) < 0.1

/-- Row-major traversal order of the `i`/`j` loops of the surface glyph
generators. -/
def gridIndexPairs (uCount vCount : ℤ) : List (ℕ × ℕ) :=
  (List.range uCount.toNat).flatMap (fun i =>
    (List.range vCount.toNat).map (fun j => (i, j)))

/-- Grid-sample position (`pos = surfaceFunc(u, v)`) of the surface
glyph generators. -/
def overlayPos (surfaceFunc : ℝ → ℝ → Vec3) (uMin uMax vMin vMax : ℝ)
    (uCount vCount : ℤ) (ij : ℕ × ℕ) : Vec3 :=
  surfaceFunc (overlaySample uMin uMax uCount ij.1)
    (overlaySample vMin vMax vCount ij.2)

/-- Central-difference `∂p/∂u` (with `eps = 1e-4`) at a glyph grid
sample. -/
def overlayDpdu (surfaceFunc : ℝ → ℝ → Vec3) (uMin uMax vMin vMax : ℝ)
    (uCount vCount : ℤ) (ij : ℕ × ℕ) : Vec3 :=
  let u := overlaySample uMin uMax uCount ij.1
  let v := overlaySample vMin vMax vCount ij.2
  let eps : ℝ := 1e-4
  (surfaceFunc (u + eps) v - surfaceFunc (u - eps) v).divs (2 * eps)

/-- Central-difference `∂p/∂v` (with `eps = 1e-4`) at a glyph grid
sample. -/
def overlayDpdv (surfaceFunc : ℝ → ℝ → Vec3) (uMin uMax vMin vMax : ℝ)
    (uCount vCount : ℤ) (ij : ℕ × ℕ) : Vec3 :=
  let u := overlaySample uMin uMax uCount ij.1
  let v := overlaySample vMin vMax vCount ij.2
  let eps : ℝ := 1e-4
  (surfaceFunc u (v + eps) - surfaceFunc u (v - eps)).divs (2 * eps)

/-- Unnormalized surface normal (`cross(dpdu, dpdv)`, optionally
flipped) computed by `generateSurfaceNormals` at a grid sample. -/
def surfaceNormalsDir (surfaceFunc : ℝ → ℝ → Vec3) (uMin uMax vMin vMax : ℝ)
    (uCount vCount : ℤ) (flipNormal : Bool) (ij : ℕ × ℕ) : Vec3 :=
  let normal0 := Vec3.cross
    (overlayDpdu surfaceFunc uMin uMax vMin vMax uCount vCount ij)
    (overlayDpdv surfaceFunc uMin uMax vMin vMax uCount vCount ij)
  if flipNormal then -normal0 else normal0

/-- Loop body of `GraphObjects::generateSurfaceNormals`: state is the
pair (emitted vertices, placed glyph positions). -/
def surfaceNormalsStep (surfaceFunc : ℝ → ℝ → Vec3) (uMin uMax vMin vMax : ℝ)
    (uCount vCount : ℤ) (arrowScale : ℝ) (color : Vec3) (flipNormal : Bool)
    (st : List VertexAttributes × List Vec3) (ij : ℕ × ℕ) :
    List VertexAttributes × List Vec3 :=
  let pos := overlayPos surfaceFunc uMin uMax vMin vMax uCount vCount ij
  if tooCloseTo st.2 pos then st
  else
    let normal1 := surfaceNormalsDir surfaceFunc uMin uMax vMin vMax uCount
      vCount flipNormal ij
    let mag := Vec3.norm normal1
    if mag < 1e-8 then st
    else
      let normal := normal1.divs mag
      let len := arrowScale
      let mesh := generateArrowMesh (len * 0.7) (len * 0.02) (len * 0.3)
        (len * 0.06) 6 color
      (st.1 ++ placeGlyph normal pos mesh, st.2 ++ [pos])

/-- Embeds `GraphObjects::generateSurfaceNormals` (emitted vertices). -/
def generateSurfaceNormals (surfaceFunc : ℝ → ℝ → Vec3)
    (uMin uMax vMin vMax : ℝ) (uCount vCount : ℤ) (arrowScale : ℝ)
    (color : Vec3) (flipNormal : Bool) : List VertexAttributes :=
  ((gridIndexPairs uCount vCount).foldl
    (surfaceNormalsStep surfaceFunc uMin uMax vMin vMax uCount vCount
      arrowScale color flipNormal) ([], [])).1

/-- Final `placedPositions` list of `generateSurfaceNormals`. -/
def surfaceNormalsPlaced (surfaceFunc : ℝ → ℝ → Vec3)
    (uMin uMax vMin vMax : ℝ) (uCount vCount : ℤ) (arrowScale : ℝ)
    (color : Vec3) (flipNormal : Bool) : List Vec3 :=
  ((gridIndexPairs uCount vCount).foldl
    (surfaceNormalsStep surfaceFunc uMin uMax vMin vMax uCount vCount
      arrowScale color flipNormal) ([], [])).2

/-- Body of the inner `k` loop of `generateSurfaceTangents`: emit one
tangent arrow (red for `k = 0`, green otherwise) unless the tangent is
degenerate, and record in the flag whether anything was emitted. -/
def surfaceTangentsKStep (arrowScale : ℝ) (pos dpdu dpdv : Vec3)
    (acc : List VertexAttributes × Bool) (k : ℕ) :
    List VertexAttributes × Bool :=
  let tangent0 := if k = 0 then dpdu else dpdv
  let mag := Vec3.norm tangent0
  if mag < 1e-6 then acc
  else
    let tangent := tangent0.divs mag
    let len := arrowScale
    let mesh := generateArrowMesh (len * 0.7) (len * 0.02) (len * 0.3)
      (len * 0.06) 6
      (if k = 0 then (⟨1.0, 0.2, 0.2⟩ : Vec3) else ⟨0.2, 1.0, 0.2⟩)
    (acc.1 ++ placeGlyph tangent pos mesh, true)

/-- Loop body of `GraphObjects::generateSurfaceTangents`: the inner `k`
loop over the selected tangent directions accumulates vertices and a
`placedAny` flag; the position is recorded only when some arrow was
emitted. -/
def surfaceTangentsStep (surfaceFunc : ℝ → ℝ → Vec3) (uMin uMax vMin vMax : ℝ)
    (uCount vCount : ℤ) (arrowScale : ℝ) (mode : ℤ)
    (st : List VertexAttributes × List Vec3) (ij : ℕ × ℕ) :
    List VertexAttributes × List Vec3 :=
  let pos := overlayPos surfaceFunc uMin uMax vMin vMax uCount vCount ij
  if tooCloseTo st.2 pos then st
  else
    let dpdu := overlayDpdu surfaceFunc uMin uMax vMin vMax uCount vCount ij
    let dpdv := overlayDpdv surfaceFunc uMin uMax vMin vMax uCount vCount ij
    let startK : ℕ := if mode = 2 then 1 else 0
    let endK : ℕ := if mode = 1 then 1 else 2
    let res := ((List.range (endK - startK)).map (fun dk => startK + dk)).foldl
      (surfaceTangentsKStep arrowScale pos dpdu dpdv) (st.1, false)
    (res.1, if res.2 then st.2 ++ [pos] else st.2)

/-- Embeds `GraphObjects::generateSurfaceTangents` (emitted vertices). -/
def generateSurfaceTangents (surfaceFunc : ℝ → ℝ → Vec3)
    (uMin uMax vMin vMax : ℝ) (uCount vCount : ℤ) (arrowScale : ℝ)
    (color : Vec3) (mode : ℤ) : List VertexAttributes :=
  ((gridIndexPairs uCount vCount).foldl
    (surfaceTangentsStep surfaceFunc uMin uMax vMin vMax uCount vCount
      arrowScale mode) ([], [])).1

/-- Final `placedPositions` list of `generateSurfaceTangents`. -/
def surfaceTangentsPlaced (surfaceFunc : ℝ → ℝ → Vec3)
    (uMin uMax vMin vMax : ℝ) (uCount vCount : ℤ) (arrowScale : ℝ)
    (mode : ℤ) : List Vec3 :=
  ((gridIndexPairs uCount vCount).foldl
    (surfaceTangentsStep surfaceFunc uMin uMax vMin vMax uCount vCount
      arrowScale mode) ([], [])).2

/-- Mutual separation relation on placed glyph positions. -/
def glyphSep (p q : Vec3) : Prop := 0.1 ≤ Vec3.norm (p - q)

/-- Appending a position that passed the distance check preserves
pairwise separation. -/
theorem pairwise_sep_append (placed : List Vec3) (pos : Vec3)
    (hp : placed.Pairwise glyphSep) (hn : ¬ tooCloseTo placed pos) :
    (placed ++ [pos]).Pairwise glyphSep := by
  rw [List.pairwise_append]
  refine ⟨hp, List.pairwise_singleton _ _, ?_⟩
  intro a ha b hb
  rw [List.mem_singleton] at hb
  subst hb
  unfold tooCloseTo at hn
  push_neg at hn
  have := hn a ha
  unfold glyphSep
  rw [Vec3.norm_sub_comm]
  linarith

/-- One step of `generateSurfaceNormals` preserves pairwise glyph
separation of the placed positions. -/
theorem surfaceNormalsStep_preserves (surfaceFunc : ℝ → ℝ → Vec3)
    (uMin uMax vMin vMax : ℝ) (uCount vCount : ℤ) (arrowScale : ℝ)
    (color : Vec3) (flipNormal : Bool) (st : List VertexAttributes × List Vec3)
    (ij : ℕ × ℕ) (h : st.2.Pairwise glyphSep) :
    ((surfaceNormalsStep surfaceFunc uMin uMax vMin vMax uCount vCount
      arrowScale color flipNormal st ij).2).Pairwise glyphSep := by
  unfold surfaceNormalsStep
  dsimp only
  split
  · exact h
  next hnc =>
    split_ifs <;> first | exact h | exact pairwise_sep_append _ _ h hnc

/-- One step of `generateSurfaceTangents` preserves pairwise glyph
separation of the placed positions. -/
theorem surfaceTangentsStep_preserves (surfaceFunc : ℝ → ℝ → Vec3)
    (uMin uMax vMin vMax : ℝ) (uCount vCount : ℤ) (arrowScale : ℝ)
    (mode : ℤ) (st : List VertexAttributes × List Vec3)
    (ij : ℕ × ℕ) (h : st.2.Pairwise glyphSep) :
    ((surfaceTangentsStep surfaceFunc uMin uMax vMin vMax uCount vCount
      arrowScale mode st ij).2).Pairwise glyphSep := by
  unfold surfaceTangentsStep
  dsimp only
  split
  · exact h
  next hnc =>
    split_ifs <;> first | exact h | exact pairwise_sep_append _ _ h hnc

/-- C8: both surface glyph generators keep their placed positions
pairwise separated by at least the minimum distance `0.1`: a candidate
within `0.1` of an already-placed glyph is skipped, so the recorded
position set stays separated throughout and at the end of each call. -/
theorem C8_surface_glyph_min_distance (surfaceFunc : ℝ → ℝ → Vec3)
    (uMin uMax vMin vMax : ℝ) (uCount vCount : ℤ) (arrowScale : ℝ)
    (color : Vec3) (flipNormal : Bool) (mode : ℤ) :
    (surfaceNormalsPlaced surfaceFunc uMin uMax vMin vMax uCount vCount
      arrowScale color flipNormal).Pairwise glyphSep ∧
    (surfaceTangentsPlaced surfaceFunc uMin uMax vMin vMax uCount vCount
      arrowScale mode).Pairwise glyphSep := by
  constructor
  · unfold surfaceNormalsPlaced
    generalize hl : gridIndexPairs uCount vCount = l
    have main : ∀ (l : List (ℕ × ℕ)) (st : List VertexAttributes × List Vec3),
        st.2.Pairwise glyphSep →
        ((l.foldl (surfaceNormalsStep surfaceFunc uMin uMax vMin vMax uCount
          vCount arrowScale color flipNormal) st).2).Pairwise glyphSep := by
      intro l
      induction l with
      | nil => intro st h; exact h
      | cons a l ih =>
          intro st h
          exact ih _ (surfaceNormalsStep_preserves surfaceFunc uMin uMax vMin
            vMax uCount vCount arrowScale color flipNormal st a h)
    exact main l ([], []) (List.Pairwise.nil)
  · unfold surfaceTangentsPlaced
    generalize hl : gridIndexPairs uCount vCount = l
    have main : ∀ (l : List (ℕ × ℕ)) (st : List VertexAttributes × List Vec3),
        st.2.Pairwise glyphSep →
        ((l.foldl (surfaceTangentsStep surfaceFunc uMin uMax vMin vMax uCount
          vCount arrowScale mode) st).2).Pairwise glyphSep := by
      intro l
      induction l with
      | nil => intro st h; exact h
      | cons a l ih =>
          intro st h
          exact ih _ (surfaceTangentsStep_preserves surfaceFunc uMin uMax vMin
            vMax uCount vCount arrowScale mode st a h)
    exact main l ([], []) (List.Pairwise.nil)

theorem Vec3.normSq_eq_zero_iff (a : Vec3) : Vec3.normSq a = 0 ↔ a = 0 := by
  unfold Vec3.normSq
  constructor
  · intro h
    have hx : a.x = 0 := by nlinarith [sq_nonneg a.x, sq_nonneg a.y, sq_nonneg a.z]
    have hy : a.y = 0 := by nlinarith [sq_nonneg a.x, sq_nonneg a.y, sq_nonneg a.z]
    have hz : a.z = 0 := by nlinarith [sq_nonneg a.x, sq_nonneg a.y, sq_nonneg a.z]
    cases a
    simp_all [Vec3.zero_def]
  · intro h
    rw [h]
    show (0 : ℝ) ^ 2 + (0 : ℝ) ^ 2 + (0 : ℝ) ^ 2 = 0
    norm_num

theorem Vec3.dot_sub_left (a b c : Vec3) :
    Vec3.dot (a - b) c = Vec3.dot a c - Vec3.dot b c := by
  unfold Vec3.dot
  simp only [Vec3.sub_def]
  ring

theorem Vec3.dot_sub_right (a b c : Vec3) :
    Vec3.dot a (b - c) = Vec3.dot a b - Vec3.dot a c := by
  unfold Vec3.dot
  simp only [Vec3.sub_def]
  ring

theorem Vec3.dot_smul_left (r : ℝ) (a b : Vec3) :
    Vec3.dot (r • a) b = r * Vec3.dot a b := by
  unfold Vec3.dot
  simp only [Vec3.smul_def]
  ring

theorem Vec3.dot_smul_right (r : ℝ) (a b : Vec3) :
    Vec3.dot a (r • b) = r * Vec3.dot a b := by
  unfold Vec3.dot
  simp only [Vec3.smul_def]
  ring

theorem Vec3.normSq_sub_smul (a : Vec3) (r : ℝ) (b : Vec3) :
    Vec3.normSq (a - r • b)
      = Vec3.normSq a - 2 * r * Vec3.dot a b + r ^ 2 * Vec3.normSq b := by
  unfold Vec3.normSq Vec3.dot
  simp only [Vec3.sub_def, Vec3.smul_def]
  ring

/-- Unfolding equation for the seed frame normal. -/
theorem curveTubeNormals_zero (curveFunc : ℝ → Vec3) (tMin tMax : ℝ) (s : ℕ) :
    curveTubeNormals curveFunc tMin tMax s 0
      = (let t0 := curveTubeTangents curveFunc tMin tMax s 0
         let ref : Vec3 := if |t0.y| < 0.9 then ⟨0, 1, 0⟩ else ⟨1, 0, 0⟩
         Vec3.normalize (Vec3.cross t0 ref)) := rfl

/-- Unfolding equation for the propagated frame normal. -/
theorem curveTubeNormals_succ (curveFunc : ℝ → Vec3) (tMin tMax : ℝ)
    (s i : ℕ) :
    curveTubeNormals curveFunc tMin tMax s (i + 1)
      = (let prevN := curveTubeNormals curveFunc tMin tMax s i
         let prevB := Vec3.cross (curveTubeTangents curveFunc tMin tMax s i) prevN
         let ti := curveTubeTangents curveFunc tMin tMax s (i + 1)
         let projected := prevN - Vec3.dot prevN ti • ti
         let len := Vec3.norm projected
         if len > 1e-8 then projected.divs len else prevB) := rfl

/-- Invariant of the rotation-minimizing frame propagation: with unit
tangents and at most `2^31` samples (the range of the C++ `int`
`segments`), every frame normal keeps a squared length within
`i * 2e-16` of 1 and its squared dot product with the tangent at the
same index stays below `2e-16`; the non-degenerate branch restores the
invariant exactly, the binormal fallback degrades it by at most the
projection threshold. -/
theorem rmf_invariant (curveFunc : ℝ → Vec3) (tMin tMax : ℝ) (s : ℕ)
    (hs : (s : ℝ) ≤ 2 ^ 31)
    (htu : ∀ j, j ≤ s →
      Vec3.normSq (curveTubeTangents curveFunc tMin tMax s j) = 1) :
    ∀ i, i ≤ s →
      Vec3.normSq (curveTubeNormals curveFunc tMin tMax s i) ≤ 1 ∧
      1 - (i : ℝ) * 2e-16 ≤ Vec3.normSq (curveTubeNormals curveFunc tMin tMax s i) ∧
      Vec3.dot (curveTubeNormals curveFunc tMin tMax s i)
        (curveTubeTangents curveFunc tMin tMax s i) ^ 2 ≤ 2e-16 := by
  intro i
  induction i with
  | zero =>
      intro _
      have ht0 : Vec3.normSq (curveTubeTangents curveFunc tMin tMax s 0) = 1 :=
        htu 0 (Nat.zero_le s)
      rw [curveTubeNormals_zero]
      dsimp only
      set t0 := curveTubeTangents curveFunc tMin tMax s 0 with ht0def
      set ref : Vec3 := if |t0.y| < 0.9 then ⟨0, 1, 0⟩ else ⟨1, 0, 0⟩ with href
      have hcrpos : (0.19 : ℝ) ≤ Vec3.normSq (Vec3.cross t0 ref) := by
        rw [Vec3.normSq_cross, ht0, href]
        split
        next hy =>
          have hdot : Vec3.dot t0 ⟨0, 1, 0⟩ = t0.y := by unfold Vec3.dot; ring
          have hrefn : Vec3.normSq (⟨0, 1, 0⟩ : Vec3) = 1 := by
            unfold Vec3.normSq; norm_num
          rw [hdot, hrefn]
          have h2 : t0.y ^ 2 < 0.81 := by
            nlinarith [sq_abs t0.y, abs_nonneg t0.y]
          linarith
        next hy =>
          push_neg at hy
          have hdot : Vec3.dot t0 ⟨1, 0, 0⟩ = t0.x := by unfold Vec3.dot; ring
          have hrefn : Vec3.normSq (⟨1, 0, 0⟩ : Vec3) = 1 := by
            unfold Vec3.normSq; norm_num
          rw [hdot, hrefn]
          have hy2 : (0.81 : ℝ) ≤ t0.y ^ 2 := by nlinarith [sq_abs t0.y]
          have h1 : t0.x ^ 2 + t0.y ^ 2 + t0.z ^ 2 = 1 := ht0
          have hx2 : t0.x ^ 2 ≤ 0.19 := by nlinarith [sq_nonneg t0.z]
          linarith
      have hne : Vec3.normSq (Vec3.cross t0 ref) ≠ 0 := by
        have : (0 : ℝ) < Vec3.normSq (Vec3.cross t0 ref) := by linarith
        exact this.ne'
      refine ⟨?_, ?_, ?_⟩
      · rw [Vec3.normSq_normalize _ hne]
      · rw [Vec3.normSq_normalize _ hne]
        push_cast
        norm_num
      · have hz : Vec3.dot (Vec3.normalize (Vec3.cross t0 ref)) t0 = 0 := by
          unfold Vec3.normalize
          rw [Vec3.dot_divs_left, Vec3.dot_cross_left, zero_div]
        rw [hz]
        norm_num
  | succ i ih =>
      intro hsi
      have hii : i ≤ s := Nat.le_of_succ_le hsi
      obtain ⟨hA1, hA2, hd2⟩ := ih hii
      have hti0 : Vec3.normSq (curveTubeTangents curveFunc tMin tMax s i) = 1 :=
        htu i hii
      have hti1 : Vec3.normSq (curveTubeTangents curveFunc tMin tMax s (i + 1)) = 1 :=
        htu (i + 1) hsi
      have hAlow : (0.999 : ℝ)
          ≤ Vec3.normSq (curveTubeNormals curveFunc tMin tMax s i) := by
        have hile : (i : ℝ) ≤ 2 ^ 31 := le_trans (Nat.cast_le.mpr hii) hs
        nlinarith [hA2, hile]
      rw [curveTubeNormals_succ]
      dsimp only
      set prevN := curveTubeNormals curveFunc tMin tMax s i with hprevNdef
      set ti := curveTubeTangents curveFunc tMin tMax s i with htidef
      set ti1 := curveTubeTangents curveFunc tMin tMax s (i + 1) with hti1def
      set c := Vec3.dot prevN ti1 with hcdef
      set proj := prevN - c • ti1 with hprojdef
      have hprojSq : Vec3.normSq proj = Vec3.normSq prevN - c ^ 2 := by
        rw [hprojdef, Vec3.normSq_sub_smul, hti1, hcdef]
        ring
      split
      next hlen =>
        have hpos : (0 : ℝ) < Vec3.normSq proj := by
          have h2 := Vec3.sq_norm proj
          nlinarith [hlen]
        have hA : Vec3.normSq (proj.divs (Vec3.norm proj)) = 1 :=
          Vec3.normSq_normalize proj hpos.ne'
        refine ⟨by rw [hA], ?_, ?_⟩
        · rw [hA]
          push_cast
          nlinarith [Nat.cast_nonneg (α := ℝ) i]
        · have hdz : Vec3.dot (proj.divs (Vec3.norm proj)) ti1 = 0 := by
            rw [Vec3.dot_divs_left]
            have hz : Vec3.dot proj ti1 = 0 := by
              rw [hprojdef, Vec3.dot_sub_left, Vec3.dot_smul_left,
                Vec3.dot_self, hti1, hcdef]
              ring
            rw [hz, zero_div]
          rw [hdz]
          norm_num
      next hlen =>
        push_neg at hlen
        have hpsq : Vec3.normSq proj ≤ 1e-16 := by
          have h2 := Vec3.sq_norm proj
          nlinarith [Vec3.norm_nonneg proj]
        have hdi : Vec3.dot ti prevN ^ 2 ≤ 2e-16 := by
          rw [Vec3.dot_comm]
          exact hd2
        have hB : Vec3.normSq (Vec3.cross ti prevN)
            = Vec3.normSq prevN - Vec3.dot ti prevN ^ 2 := by
          rw [Vec3.normSq_cross, hti0]
          ring
        have hBle : Vec3.normSq (Vec3.cross ti prevN) ≤ 1 := by
          rw [hB]
          nlinarith [sq_nonneg (Vec3.dot ti prevN)]
        refine ⟨hBle, ?_, ?_⟩
        · rw [hB]
          push_cast
          nlinarith [hdi]
        · have hc2 : (0.99 : ℝ) ≤ c ^ 2 := by linarith [hprojSq]
          have hBn : Vec3.dot (Vec3.cross ti prevN) prevN = 0 :=
            Vec3.dot_cross_right ti prevN
          have hkey : Vec3.dot (Vec3.cross ti prevN) proj
              = -(c * Vec3.dot (Vec3.cross ti prevN) ti1) := by
            rw [hprojdef, Vec3.dot_sub_right, Vec3.dot_smul_right, hBn]
            ring
          have hsq : c ^ 2 * Vec3.dot (Vec3.cross ti prevN) ti1 ^ 2
              = Vec3.dot (Vec3.cross ti prevN) proj ^ 2 := by
            rw [hkey]
            ring
          have hcs : Vec3.dot (Vec3.cross ti prevN) proj ^ 2
              ≤ Vec3.normSq (Vec3.cross ti prevN) * Vec3.normSq proj :=
            Vec3.dot_sq_le _ _
          nlinarith [hsq, hcs, hc2, hpsq, hBle,
            sq_nonneg (Vec3.dot (Vec3.cross ti prevN) ti1),
            Vec3.normSq_nonneg proj, Vec3.normSq_nonneg (Vec3.cross ti prevN)]

/-- C2: in the rotation-minimizing frame propagation of
`generateParametricCurveTube`, the frame normal at every sample index
(including indices produced by the previous-binormal fallback) is
orthogonal to the tangent at that index within `ε = 1e-6`, provided all
finite-difference tangents are nondegenerate and the sample count is in
the range of the C++ `int` `segments` (`s ≤ 2^31`). -/
theorem C2_rmf_normal_tangent_orthogonal (curveFunc : ℝ → Vec3)
    (tMin tMax : ℝ) (s : ℕ) (hs : s ≤ 2 ^ 31)
    (ht : ∀ j, j ≤ s → curveTubeTangentPre curveFunc tMin tMax s j ≠ 0)
    (i : ℕ) (hi : i ≤ s) :
    |Vec3.dot (curveTubeNormals curveFunc tMin tMax s i)
      (curveTubeTangents curveFunc tMin tMax s i)| < 1e-6 := by
  have htu : ∀ j, j ≤ s →
      Vec3.normSq (curveTubeTangents curveFunc tMin tMax s j) = 1 := by
    intro j hj
    have hne : Vec3.normSq (curveTubeTangentPre curveFunc tMin tMax s j) ≠ 0 := by
      rw [Ne, Vec3.normSq_eq_zero_iff]
      exact ht j hj
    exact Vec3.normSq_normalize _ hne
  have hcast : (s : ℝ) ≤ 2 ^ 31 := by
    calc (s : ℝ) ≤ ((2 ^ 31 : ℕ) : ℝ) := Nat.cast_le.mpr hs
      _ = 2 ^ 31 := by push_cast; ring
  obtain ⟨-, -, hd2⟩ := rmf_invariant curveFunc tMin tMax s hcast htu i hi
  by_contra hcon
  push_neg at hcon
  have habs := sq_abs (Vec3.dot (curveTubeNormals curveFunc tMin tMax s i)
    (curveTubeTangents curveFunc tMin tMax s i))
  nlinarith [abs_nonneg (Vec3.dot (curveTubeNormals curveFunc tMin tMax s i)
    (curveTubeTangents curveFunc tMin tMax s i))]

/-- Witness for C2: a straight-line curve sampled with two segments,
checked at the middle sample index. -/
theorem C2_rmf_normal_tangent_orthogonal_witness :
    (2 : ℕ) ≤ 2 ^ 31 ∧
    (∀ j, j ≤ 2 → curveTubeTangentPre (fun t => ⟨t, 0, 0⟩) 0 1 2 j ≠ 0) ∧
    |Vec3.dot (curveTubeNormals (fun t => ⟨t, 0, 0⟩) 0 1 2 1)
      (curveTubeTangents (fun t => ⟨t, 0, 0⟩) 0 1 2 1)| < 1e-6 := by
  have ht : ∀ j, j ≤ 2 →
      curveTubeTangentPre (fun t => (⟨t, 0, 0⟩ : Vec3)) 0 1 2 j ≠ 0 := by
    intro j hj
    interval_cases j <;>
      simp only [curveTubeTangentPre, curveTubePoints] <;>
      norm_num [Vec3.smul_def, Vec3.add_def, Vec3.sub_def, Vec3.zero_def,
        Vec3.mk.injEq] <;>
      (intro h; have hx := congrArg Vec3.x h;
        simp only [Vec3.zero_def] at hx; norm_num at hx)
  exact ⟨by norm_num, ht,
    C2_rmf_normal_tangent_orthogonal _ 0 1 2 (by norm_num) ht 1 (by norm_num)⟩
